import Mathlib

/-!
Verification of the fiber reconciler core: a shallow embedding of the
lane bookkeeping (`ReactFiberLane`), the pending-work ledger
(`ReactFiberPendingWork.js`), the captured-value stack
(`ReactCapturedValue.js`), and the scheduler/commit engine
(`ReactFiberScheduler`), together with theorems about the properties the
specification states for them.

JavaScript 32-bit bitwise operations on the (nonnegative, < 2^30) lane
masks are modelled with `Nat` operations: `&` is `&&&`, `|` is `|||`,
and `a & ~b` is `Nat.ldiff a b`.
-/

namespace ReactFiberLane

/-- Lane masks are plain bitmasks. -/
abbrev Lanes := Nat

abbrev Lane := Nat

def SyncLanePriority : Nat := 10
def SyncBatchedLanePriority : Nat := 9
def InputDiscreteLanePriority : Nat := 8
def InputContinuousLanePriority : Nat := 7
def DefaultLanePriority : Nat := 6
def TransitionShortLanePriority : Nat := 5
def TransitionLongLanePriority : Nat := 4
def HydrationLanePriority : Nat := 3
def IdleLanePriority : Nat := 2
def OffscreenLanePriority : Nat := 1
def NoLanePriority : Nat := 0

def TotalLanes : Nat := 30

def NoLanes : Lanes := 0b000000000000000000000000000000
def NoLane : Lane := 0b000000000000000000000000000000

def SyncLane : Lane := 0b000000000000000000000000000001
def SyncBatchedLane : Lane := 0b000000000000000000000000000010

def InputDiscreteBumpedLane : Lane := 0b000000000000000000000000000100
def InputDiscreteLanes : Lanes := 0b000000000000000000000000011000

def InputContinuousBumpedLane : Lane := 0b000000000000000000000000100000
def InputContinuousLanes : Lanes := 0b000000000000000000000011000000

def DefaultBumpedLane : Lane := 0b000000000000000000000100000000
def DefaultLanes : Lanes := 0b000000000000000011111000000000

def TransitionShortBumpedLane : Lane := 0b000000000000000100000000000000
def TransitionShortLanes : Lanes := 0b000000000011111000000000000000

def TransitionLongBumpedLane : Lane := 0b000000000100000000000000000000
def TransitionLongLanes : Lanes := 0b000011111000000000000000000000

/-- Includes all non-Idle updates. -/
def NonIdleLanes : Lanes := 0b000011111111111111111111111111

def IdleBumpedLane : Lane := 0b000100000000000000000000000000
def IdleUpdateLanes : Lanes := 0b011000000000000000000000000000

def OffscreenLane : Lane := 0b100000000000000000000000000000

/-- `getHighestPriorityLanes` returns a pair: the selected lanes together
with the value written into the `return_highestLanePriority` register.
The final arm is the `__DEV__`-guarded fallback that returns the entire
input bitmask with `DefaultLanePriority`. -/
def getHighestPriorityLanes (lanes : Lanes) : Lanes × Nat :=
  if SyncLane &&& lanes ≠ NoLanes then (SyncLane, SyncLanePriority)
  else if SyncBatchedLane &&& lanes ≠ NoLanes then (SyncBatchedLane, SyncBatchedLanePriority)
  else if InputDiscreteBumpedLane &&& lanes ≠ NoLanes then
    (InputDiscreteBumpedLane, InputDiscreteLanePriority)
  else if InputDiscreteLanes &&& lanes ≠ NoLanes then
    (InputDiscreteLanes &&& lanes, InputDiscreteLanePriority)
  else if InputContinuousBumpedLane &&& lanes ≠ NoLanes then
    (InputContinuousBumpedLane, InputContinuousLanePriority)
  else if InputContinuousLanes &&& lanes ≠ NoLanes then
    (InputContinuousLanes &&& lanes, InputContinuousLanePriority)
  else if DefaultBumpedLane &&& lanes ≠ NoLanes then
    (DefaultBumpedLane, DefaultLanePriority)
  else if DefaultLanes &&& lanes ≠ NoLanes then
    (DefaultLanes &&& lanes, DefaultLanePriority)
  else if TransitionShortBumpedLane &&& lanes ≠ NoLanes then
    (TransitionShortBumpedLane, TransitionShortLanePriority)
  else if TransitionShortLanes &&& lanes ≠ NoLanes then
    (TransitionShortLanes &&& lanes, TransitionShortLanePriority)
  else if TransitionLongBumpedLane &&& lanes ≠ NoLanes then
    (TransitionLongBumpedLane, TransitionLongLanePriority)
  else if TransitionLongLanes &&& lanes ≠ NoLanes then
    (TransitionLongLanes &&& lanes, TransitionLongLanePriority)
  else if IdleBumpedLane &&& lanes ≠ NoLanes then
    (IdleBumpedLane, IdleLanePriority)
  else if IdleUpdateLanes &&& lanes &&& lanes ≠ NoLanes then
    (IdleUpdateLanes &&& lanes, IdleLanePriority)
  else if OffscreenLane &&& lanes ≠ NoLanes then
    (OffscreenLane, OffscreenLanePriority)
  else (lanes, DefaultLanePriority)

/-- The lane fields of a `FiberRoot` read by `getNextLanes` and mutated
by the `markRoot*` family. -/
structure RootLanes where
  pendingLanes : Lanes
  suspendedLanes : Lanes
  pingedLanes : Lanes
  expiredLanes : Lanes
  mutableReadLanes : Lanes
deriving Repr, DecidableEq

/-- `getNextLanes` returns the selected lanes and the value left in the
`return_highestLanePriority` register (which the early-return paths set
to `SyncLanePriority`, and which keeps its previous value `prev` when
the suspended-only path returns `NoLanes`). In the non-idle branch the
source tests `nonIdlePendingLanes !== NoLanes` (not the pinged set)
before the second call, so that call is always taken there. -/
def getNextLanes (root : RootLanes) (prev : Nat) : Lanes × Nat :=
  let pendingLanes := root.pendingLanes
  if pendingLanes = NoLanes then (NoLanes, SyncLanePriority)
  else
    let expiredLanes := root.expiredLanes
    if expiredLanes ≠ NoLanes then (expiredLanes, SyncLanePriority)
    else
      let suspendedLanes := root.suspendedLanes
      let pingedLanes := root.pingedLanes
      let nonIdlePendingLanes := pendingLanes &&& NonIdleLanes
      if nonIdlePendingLanes ≠ NoLanes then
        let nonIdleUnblockedLanes := Nat.ldiff nonIdlePendingLanes suspendedLanes
        if nonIdleUnblockedLanes ≠ NoLanes then
          getHighestPriorityLanes nonIdleUnblockedLanes
        else
          let nonIdlePingedLanes := nonIdlePendingLanes &&& pingedLanes
          if nonIdlePendingLanes ≠ NoLanes then
            getHighestPriorityLanes nonIdlePingedLanes
          else (NoLanes, prev)
      else
        let unblockedLanes := Nat.ldiff pendingLanes suspendedLanes
        if unblockedLanes ≠ NoLanes then
          getHighestPriorityLanes unblockedLanes
        else if pingedLanes ≠ NoLanes then
          getHighestPriorityLanes pingedLanes
        else (NoLanes, prev)

/-- One iteration step of the `while ((lanes & 1) === 0)` loop in
`pickArbitraryLane`, run with explicit fuel: the loop body is
`lane <<= 1` and nothing else, so the tested expression `lanes & 1`
refers to the unchanged parameter on every iteration. `none` means the
fuel ran out before the loop exited. -/
def pickArbitraryLaneLoop (fuel : Nat) (lanes lane : Nat) : Option Nat :=
  match fuel with
  | 0 => none
  | fuel + 1 =>
    if lanes &&& 1 = 0 then pickArbitraryLaneLoop fuel lanes (lane <<< 1)
    else some lane

/-- `pickArbitraryLane`, with the internal while-loop bounded by `fuel`. -/
def pickArbitraryLane (fuel : Nat) (lanes : Lanes) : Option Nat :=
  if lanes ≠ 0 then pickArbitraryLaneLoop fuel lanes 1
  else some NoLane

def includesSomeLane (a b : Lanes) : Bool := a &&& b ≠ NoLanes

def isSubsetOfLanes (set subset : Lanes) : Bool := set &&& subset = subset

def combineLanes (a b : Lanes) : Lanes := a ||| b

def removeLanes (set subset : Lanes) : Lanes := Nat.ldiff set subset

def markRootUpdated (root : RootLanes) (updateLane : Lane) : RootLanes :=
  { root with
    pendingLanes := root.pendingLanes ||| updateLane
    suspendedLanes := NoLanes
    pingedLanes := NoLanes }

def markRootSuspended (root : RootLanes) (suspendedLanes : Lanes) : RootLanes :=
  { root with
    suspendedLanes := root.suspendedLanes ||| suspendedLanes
    pingedLanes := Nat.ldiff root.pingedLanes suspendedLanes }

def markRootPinged (root : RootLanes) (pingedLanes : Lanes) (_currentTime : Nat) : RootLanes :=
  { root with pingedLanes := root.pingedLanes ||| (pingedLanes &&& root.suspendedLanes) }

def markRootExpired (root : RootLanes) (expiredLanes : Lanes) : RootLanes :=
  { root with expiredLanes := root.expiredLanes ||| (expiredLanes &&& root.pendingLanes) }

/-- `markRootFinished` first computes `finishedLanes = pendingLanes &
remainingLanes` and returns early (leaving the root untouched) when that
intersection is nonempty; otherwise it masks every lane field down to
`remainingLanes`. -/
def markRootFinished (root : RootLanes) (remainingLanes : Lanes) : RootLanes :=
  let finishedLanes := root.pendingLanes &&& remainingLanes
  if finishedLanes ≠ NoLanes then root
  else
    { pendingLanes := remainingLanes
      suspendedLanes := root.suspendedLanes &&& remainingLanes
      pingedLanes := root.pingedLanes &&& remainingLanes
      expiredLanes := root.expiredLanes &&& remainingLanes
      mutableReadLanes := root.mutableReadLanes &&& remainingLanes }

/-- One call of the lane bookkeeping interface on a root. -/
inductive LaneOp where
  | update (updateLane : Lane)
  | suspend (suspendedLanes : Lanes)
  | ping (pingedLanes : Lanes) (currentTime : Nat)
  | expire (expiredLanes : Lanes)
  | finish (remainingLanes : Lanes)
deriving Repr, DecidableEq

def applyLaneOp (root : RootLanes) : LaneOp → RootLanes
  | .update l => markRootUpdated root l
  | .suspend s => markRootSuspended root s
  | .ping p t => markRootPinged root p t
  | .expire e => markRootExpired root e
  | .finish r => markRootFinished root r

def applyLaneOps (root : RootLanes) (ops : List LaneOp) : RootLanes :=
  ops.foldl applyLaneOp root

end ReactFiberLane

namespace ReactFiberExpirationTime

/-- Sentinels of the expiration-time model. Modelled from the spec:
`ReactFiberExpirationTime` is not among the provided sources; the spec
describes a monotonically-increasing numeric deadline per batch where a
smaller number is more urgent, with a distinguished no-work value and a
most-urgent synchronous value, and the scheduler compares them with
`===`/`<` only, so `NoWork = 0` sits apart and `Sync = 1` below every
asynchronous deadline. -/
def NoWork : Nat := 0

/-- The most urgent expiration time; see `NoWork`. -/
def Sync : Nat := 1

end ReactFiberExpirationTime

namespace ReactFiberPendingWork

/-- One outstanding batch of work for a root at a given expiration
time. The intrusive `next` pointer of the source list is represented by
the position in a `List PendingWork`. -/
structure PendingWork where
  expirationTime : Nat
  isBlocked : Bool
  needsRetry : Bool
  isInteractive : Bool
deriving Repr, DecidableEq

/-- The fresh entry allocated by `addPendingWork` when no bucket with
the requested expiration time exists. -/
def freshWork (expirationTime : Nat) : PendingWork :=
  { expirationTime := expirationTime
    isBlocked := false
    needsRetry := false
    isInteractive := true }

/-- The walk of `addPendingWork` over the ledger. Per visited entry, in
source order: set `needsRetry` when `expirationTime >= t`; record a
match when `expirationTime === t`; break at the first entry with
`expirationTime > t` while no match has been recorded, inserting the
fresh entry right before it (`insertPendingWorkAtPosition`). Falling
off the end inserts at the end unless a match was recorded. -/
def addPendingWorkLoop (t : Nat) (matchFound : Bool) : List PendingWork → List PendingWork
  | [] => if matchFound then [] else [freshWork t]
  | w :: rest =>
    let w' := if t ≤ w.expirationTime then { w with needsRetry := true } else w
    let matchFound' := matchFound || (w.expirationTime == t)
    if ¬matchFound' ∧ t < w.expirationTime then freshWork t :: w' :: rest
    else w' :: addPendingWorkLoop t matchFound' rest

def addPendingWork (t : Nat) (firstPendingWork : List PendingWork) : List PendingWork :=
  addPendingWorkLoop t false firstPendingWork

/-- Sets `needsRetry` on an entry, as the loop body does for entries at
or past the requested time. -/
def flagRetry (w : PendingWork) : PendingWork := { w with needsRetry := true }

/-- The ledger invariant: entries are strictly ascending in
`expirationTime`. -/
def SortedLedger (l : List PendingWork) : Prop :=
  l.Pairwise (fun a b => a.expirationTime < b.expirationTime)

end ReactFiberPendingWork

namespace ReactCapturedValue

def UnknownType : Nat := 0
def ErrorType : Nat := 1
def PromiseType : Nat := 2
def BlockerType : Nat := 3
def TimeoutType : Nat := 4
def CombinedType : Nat := 5

/-- Observable shape of a JavaScript object, as far as
`createCapturedValue` inspects it: the two `instanceof` tests and the
two duck-typing tests. -/
structure JSObjShape where
  isPromiseInstance : Bool
  isErrorInstance : Bool
  hasThenFunction : Bool
  hasStringStackAndMessage : Bool
deriving Repr, DecidableEq

/-- Fibers are identified by an id; `stackAddendum` is the string the
external `getStackAddendumByWorkInProgressFiber` helper would produce
for the fiber. -/
structure SourceFiber where
  id : Nat
  stackAddendum : String
deriving Repr, DecidableEq

mutual
/-- A JavaScript value as classified by `createCapturedValue`:
`captured` is an object whose `$$typeof` is `REACT_CAPTURED_VALUE`;
`obj` is any other non-null object; `prim` is a non-object value other
than `null`/`undefined`. -/
inductive JSValue where
  | jsNull
  | jsUndefined
  | prim
  | obj (shape : JSObjShape)
  | captured (cv : CapturedValueR)

/-- The record built by `createCapturedValue` (and returned unchanged by
the early-return path). -/
inductive CapturedValueR where
  | mk (value : JSValue) (tag : Nat) (source : Option SourceFiber)
      (boundary : Option SourceFiber) (stack : Option String)
end

def CapturedValueR.value : CapturedValueR → JSValue
  | .mk v _ _ _ _ => v

def CapturedValueR.tag : CapturedValueR → Nat
  | .mk _ t _ _ _ => t

def CapturedValueR.source : CapturedValueR → Option SourceFiber
  | .mk _ _ s _ _ => s

def CapturedValueR.boundary : CapturedValueR → Option SourceFiber
  | .mk _ _ _ b _ => b

def CapturedValueR.stack : CapturedValueR → Option String
  | .mk _ _ _ _ s => s

/-- Tag computation of `createCapturedValue` for a value that is not
already captured. The module-level `getPrototypeOf` is the literal
`null`: its initializer compares the function `Object.getPrototypeOf`
against the string `'function'` with `===` (a missing `typeof`), which
is false, so the prototype-chain walk is dead code and the
`instanceof` results feed straight into the duck-typing block, which
runs for every non-null object and may overwrite them. -/
def computeTag (value : JSValue) : Nat :=
  let instTag :=
    match value with
    | .obj shape =>
      if shape.isPromiseInstance then PromiseType
      else if shape.isErrorInstance then ErrorType
      else UnknownType
    | _ => UnknownType
  match value with
  | .obj shape =>
    if shape.hasThenFunction then PromiseType
    else if shape.hasStringStackAndMessage then ErrorType
    else instTag
  | _ => instTag

/-- `createCapturedValue`: values that already carry the
`REACT_CAPTURED_VALUE` marker are returned as they are; anything else is
wrapped in a fresh record whose `stack` is only computed for errors
with a source fiber. -/
def createCapturedValue (value : JSValue) (source : Option SourceFiber) : CapturedValueR :=
  match value with
  | .captured cv => cv
  | v =>
    let tag := computeTag v
    .mk v tag source none
      (match source with
       | some s => if tag = ErrorType then some s.stackAddendum else none
       | none => none)

/-- A frame of the captured-value stack: `none` mirrors the `null`
placeholder pushed by `pushFrame`, `some values` an array of captured
values. The head of the list is the frame at the current `index`;
entries of the backing array above `index` are dead and not
represented. -/
abbrev Frame := Option (List CapturedValueR)

/-- `pushFrame` advances `index` and installs a `null` frame. -/
def pushFrame (stack : List Frame) : List Frame := none :: stack

/-- `popFrameAndBubbleValues`. On the empty stack (`index` is `-1`)
`getCurrentFrame` reads an unset slot and its invariant fires.
Otherwise the top frame is popped; a `null` frame bubbles nothing; at
the bottom of the stack remaining values are dropped; else the popped
values are appended to the parent frame (installed wholesale when the
parent frame is `null`). -/
def popFrameAndBubbleValues : List Frame → Except String (List Frame)
  | [] => .error "Expected a current frame. This error is likely caused by a bug in React. Please file an issue."
  | currentFrame :: rest =>
    match currentFrame with
    | none => .ok rest
    | some values =>
      match rest with
      | [] => .ok []
      | previousFrame :: rest' =>
        match previousFrame with
        | none => .ok (some values :: rest')
        | some previousValues => .ok (some (previousValues ++ values) :: rest')

end ReactCapturedValue

namespace ReactFiberScheduler

open ReactFiberExpirationTime

/-- Effect tags of `shared/ReactTypeOfSideEffect`. Modelled from the
spec: that module is not among the provided sources; the spec describes
an effect tag as a bitset whose insert/update/delete group is mutually
exclusive per node, and the scheduler's import list fixes the names,
with `PlacementAndUpdate` the union of `Placement` and `Update`. -/
def NoEffect : Nat := 0b00000000

def PerformedWork : Nat := 0b00000001

def Placement : Nat := 0b00000010

def Update : Nat := 0b00000100

def PlacementAndUpdate : Nat := 0b00000110

def Deletion : Nat := 0b00001000

def ContentReset : Nat := 0b00010000

def Callback : Nat := 0b00100000

def Err : Nat := 0b01000000

def Ref : Nat := 0b10000000

/-- One fiber on the commit-phase effect list, reduced to the fields the
two commit passes read: its `effectTag` bitset and whether its
`alternate` (the current-tree counterpart) is non-null. The intrusive
`nextEffect` chain is represented by list order. -/
structure EffectNode where
  id : Nat
  effectTag : Nat
  hasAlternate : Bool
deriving Repr, DecidableEq

/-- Observable steps of `commitRoot`: calls into the host renderer
(`commitResetTextContent`, `commitDetachRef`, `commitPlacement`,
`commitWork`, `commitDeletion`, `commitLifeCycles`, `commitAttachRef`),
the `prepareForCommit`/`resetAfterCommit` bracket, the
`root.current = finishedWork` pointer swap, and an error dispatched via
`onCommitPhaseError` for a node whose handler threw. -/
inductive CommitEvent where
  | prepareForCommit
  | resetTextContent (id : Nat)
  | detachRef (id : Nat)
  | placement (id : Nat)
  | updateWork (id : Nat)
  | deletion (id : Nat)
  | commitPhaseError (id : Nat) (expirationTime : Nat)
  | resetAfterCommit
  | swapCurrent
  | lifeCycles (id : Nat)
  | attachRef (id : Nat)
deriving Repr, DecidableEq

/-- `effectTag & ~(Callback | Err | ContentReset | Ref | PerformedWork)`. -/
def primaryEffectTag (n : EffectNode) : Nat :=
  Nat.ldiff n.effectTag (Callback ||| Err ||| ContentReset ||| Ref ||| PerformedWork)

/-- The host calls the `commitAllHostEffects` loop body issues for one
node, in source order: content reset, ref detach on the non-null
alternate, then the primary placement/update/deletion switch. The
source also clears the `Placement` bit on the fiber after
`commitPlacement`; no later commit-phase read depends on it, so the
trace model does not track that mutation. -/
def pass1Calls (n : EffectNode) : List CommitEvent :=
  (if n.effectTag &&& ContentReset ≠ 0 then [.resetTextContent n.id] else []) ++
    (if n.effectTag &&& Ref ≠ 0 ∧ n.hasAlternate then [.detachRef n.id] else []) ++
      (if primaryEffectTag n = Placement then [.placement n.id]
       else if primaryEffectTag n = PlacementAndUpdate then [.placement n.id, .updateWork n.id]
       else if primaryEffectTag n = Update then [.updateWork n.id]
       else if primaryEffectTag n = Deletion then [.deletion n.id]
       else [])

/-- The calls the `commitAllLifeCycles` loop body issues for one node:
lifecycles when `Update` or `Callback` is set, then ref attachment. The
source also nulls out the node's `nextEffect` link as cleanup. -/
def pass2Calls (n : EffectNode) : List CommitEvent :=
  (if n.effectTag &&& (Update ||| Callback) ≠ 0 then [.lifeCycles n.id] else []) ++
    (if n.effectTag &&& Ref ≠ 0 then [.attachRef n.id] else [])

/-- Behaviour of the external handlers: `hostOk c = false` means the
call `c` throws. -/
abbrev HostBehavior := CommitEvent → Bool

/-- Issues a node's host calls in order until one throws; returns the
calls that completed and whether the node finished normally. A throwing
call performs no observable work in the trace; the exception propagates
to the wrapper in `commitRoot`. -/
def runHostCalls (hostOk : HostBehavior) : List CommitEvent → List CommitEvent × Bool
  | [] => ([], true)
  | c :: rest =>
    if hostOk c then
      match runHostCalls hostOk rest with
      | (evs, ok) => (c :: evs, ok)
    else ([], false)

/-- One run of an effect-list pass (`commitAllHostEffects` or
`commitAllLifeCycles`), generic in the per-node call list: walks
`nextEffect` down the list; if a node's handler throws, returns the
events so far together with the node at which the exception left the
loop (`nextEffect` at catch time) and the unprocessed tail. -/
def commitAllEffects (calls : EffectNode → List CommitEvent) (hostOk : HostBehavior) :
    List EffectNode → List CommitEvent × Option (EffectNode × List EffectNode)
  | [] => ([], none)
  | n :: rest =>
    match runHostCalls hostOk (calls n) with
    | (evs, true) =>
      match commitAllEffects calls hostOk rest with
      | (evs', r) => (evs ++ evs', r)
    | (evs, false) => (evs, some (n, rest))

theorem commitAllEffects_some_length {calls : EffectNode → List CommitEvent}
    {hostOk : HostBehavior} :
    ∀ {l : List EffectNode} {evs : List CommitEvent} {n : EffectNode}
      {rest : List EffectNode},
      commitAllEffects calls hostOk l = (evs, some (n, rest)) → rest.length < l.length := by
  intro l
  induction l with
  | nil => intro evs n rest h; simp [commitAllEffects] at h
  | cons hd tl ih =>
    intro evs n rest h
    simp only [commitAllEffects] at h
    rcases hr : runHostCalls hostOk (calls hd) with ⟨evs0, ok⟩
    rw [hr] at h
    cases ok with
    | true =>
      rcases hc : commitAllEffects calls hostOk tl with ⟨evs1, r⟩
      rw [hc] at h
      simp only [Prod.mk.injEq] at h
      rcases h with ⟨-, h2⟩
      cases r with
      | none => simp at h2
      | some p =>
        cases h2
        exact Nat.lt_trans (ih hc) (Nat.lt_succ_self _)
    | false =>
      simp only [Prod.mk.injEq, Option.some.injEq, Prod.mk.injEq] at h
      rcases h with ⟨-, -, h3⟩
      cases h3
      exact Nat.lt_succ_self _

/-- One full wrapped pass of `commitRoot` (lines with the outer `while
(nextEffect !== null)` and its `try`/`catch`): run the pass; when a
node's handler throws, `onCommitPhaseError(nextEffect, error)` is
dispatched at `Sync` priority, `nextEffect` advances to the failing
node's successor, and the pass re-enters for the remaining nodes. -/
def commitPassWithRecovery (calls : EffectNode → List CommitEvent) (hostOk : HostBehavior)
    (nodes : List EffectNode) : List CommitEvent :=
  match h : commitAllEffects calls hostOk nodes with
  | (evs, none) => evs
  | (evs, some (n, rest)) =>
    evs ++ .commitPhaseError n.id Sync :: commitPassWithRecovery calls hostOk rest
termination_by nodes.length
decreasing_by exact commitAllEffects_some_length h

/-- What one node contributes to a wrapped pass: its completed host
calls, followed — when its handler threw — by the `Sync`-priority
dispatch of the error at that node. -/
def perNodePassTrace (calls : EffectNode → List CommitEvent) (hostOk : HostBehavior)
    (n : EffectNode) : List CommitEvent :=
  match runHostCalls hostOk (calls n) with
  | (evs, true) => evs
  | (evs, false) => evs ++ [.commitPhaseError n.id Sync]

/-- The root fields `commitRoot` touches: the current-tree pointer and
the `didBlock` flag read for the return value. Trees are identified by
fiber id. -/
structure RootModel where
  currentId : Nat
  didBlock : Bool
deriving Repr, DecidableEq

/-- The finished work-in-progress tree handed to `commitRoot`: its root
fiber id and the `alternate` back-link to its counterpart (the tree
that was current when rendering started). -/
structure FiberTreeRef where
  id : Nat
  alternate : Option Nat
deriving Repr, DecidableEq

/-- Trace of `commitRoot` from `prepareForCommit()` to the end of the
lifecycle pass, with each event annotated with the value of
`root.current` at the moment it is executed: the host-mutation pass
runs against the old current tree, then `resetAfterCommit()`, then the
pointer swap `root.current = finishedWork`, then the lifecycle pass
against the new current tree (the swap event itself carries the value
the assignment installs). Also returns the root after the swap. The
effect list (`firstEffect` chain, root effect already appended) is the
`firstEffect` parameter. -/
def commitRootAnnotated (hostOk : HostBehavior) (root : RootModel) (finishedWork : FiberTreeRef)
    (firstEffect : List EffectNode) : List (CommitEvent × Nat) × RootModel :=
  let pass1 := commitPassWithRecovery pass1Calls hostOk firstEffect
  let pass2 := commitPassWithRecovery pass2Calls hostOk firstEffect
  (((CommitEvent.prepareForCommit, root.currentId) ::
      pass1.map (fun e => (e, root.currentId))) ++
    (CommitEvent.resetAfterCommit, root.currentId) ::
      (CommitEvent.swapCurrent, finishedWork.id) ::
        pass2.map (fun e => (e, finishedWork.id)),
    { root with currentId := finishedWork.id })

/-- Host-mutation events of pass 1, `resetAfterCommit` included. -/
def isPass1Event : CommitEvent → Bool
  | .resetTextContent _ => true
  | .detachRef _ => true
  | .placement _ => true
  | .updateWork _ => true
  | .deletion _ => true
  | .resetAfterCommit => true
  | _ => false

/-- Lifecycle/ref-attach events of pass 2. -/
def isPass2Event : CommitEvent → Bool
  | .lifeCycles _ => true
  | .attachRef _ => true
  | _ => false

/-- Kind of a work node, as far as `dispatch` inspects it. -/
inductive WorkTag where
  | classComponent
  | hostRoot
  | hostComponent
  | hostPortal
  | asyncBoundary
  | otherComponent
deriving Repr, DecidableEq

/-- A fiber as seen by `dispatch`: its tag, and whether its `stateNode`
instance has a `componentDidCatch` method. -/
structure FiberLite where
  id : Nat
  tag : WorkTag
  hasComponentDidCatch : Bool
deriving Repr, DecidableEq

/-- The outcome of `scheduleCapture(sourceFiber, boundaryFiber, value,
expirationTime)`: a captured value tied to the boundary plus an update
inserted into the boundary's queue and `scheduleWork(boundaryFiber,
expirationTime)` — both at the same `expirationTime` the caller
passed. -/
structure ScheduledCapture where
  sourceId : Nat
  boundaryId : Nat
  errorId : Nat
  expirationTime : Nat
deriving Repr, DecidableEq

/-- `dispatch(sourceFiber, value, expirationTime)` after its reentrancy
invariant: walk the `return` chain of the source fiber (given here as
the list of ancestors starting at `sourceFiber.return`); the first
class component whose instance has `componentDidCatch`, or the host
root, claims the value via `scheduleCapture`; when the walk exhausts
the chain, a host-root *source* captures its own error. -/
def dispatch (sourceFiber : FiberLite) (returnChain : List FiberLite) (errorId : Nat)
    (expirationTime : Nat) : Option ScheduledCapture :=
  match returnChain with
  | [] =>
    if sourceFiber.tag = .hostRoot then
      some ⟨sourceFiber.id, sourceFiber.id, errorId, expirationTime⟩
    else none
  | fiber :: rest =>
    match fiber.tag with
    | .classComponent =>
      if fiber.hasComponentDidCatch then
        some ⟨sourceFiber.id, fiber.id, errorId, expirationTime⟩
      else dispatch sourceFiber rest errorId expirationTime
    | .hostRoot => some ⟨sourceFiber.id, fiber.id, errorId, expirationTime⟩
    | _ => dispatch sourceFiber rest errorId expirationTime

/-- `onCommitPhaseError(fiber, error)` forwards to `dispatch` at `Sync`
priority. -/
def onCommitPhaseError (fiber : FiberLite) (returnChain : List FiberLite) (errorId : Nat) :
    Option ScheduledCapture :=
  dispatch fiber returnChain errorId Sync

/-- A scheduled root of the circular list, reduced to its identity and
its `remainingExpirationTime`. The ring is represented as the list from
`firstScheduledRoot` to `lastScheduledRoot` in traversal order. -/
structure SchedRoot where
  id : Nat
  remainingExpirationTime : Nat
deriving Repr, DecidableEq

/-- Module-level scheduler state touched by `requestWork` and
`findHighestPriorityRoot`. -/
structure SchedulerState where
  scheduledRoots : List SchedRoot
  nextFlushedRoot : Option Nat
  nextFlushedExpirationTime : Nat
  nestedUpdateCount : Nat
  isRendering : Bool
  isBatchingUpdates : Bool
  isUnbatchingUpdates : Bool
deriving Repr, DecidableEq

def NESTED_UPDATE_LIMIT : Nat := 10

/-- The accumulator step of the selection sweep: keep the strictly more
urgent (smaller, nonzero) `remainingExpirationTime`, first occurrence
winning ties; `none` mirrors the initial
`highestPriorityWork === NoWork` state. -/
def selectHigherPriority (best : Option SchedRoot) (root : SchedRoot) : Option SchedRoot :=
  match best with
  | none => some root
  | some b =>
    if root.remainingExpirationTime < b.remainingExpirationTime then some root else b

/-- `findHighestPriorityRoot`: one sweep of the ring that unlinks every
root whose `remainingExpirationTime` is `NoWork` and tracks the most
urgent remaining root; then the nested-update bookkeeping: if the
selected root is the same as `nextFlushedRoot` from the previous call
(and not null), `nestedUpdateCount` is incremented, otherwise reset to
zero; finally `nextFlushedRoot`/`nextFlushedExpirationTime` are
overwritten with the selection. -/
def findHighestPriorityRoot (s : SchedulerState) : SchedulerState :=
  let kept := s.scheduledRoots.filter (fun r => r.remainingExpirationTime ≠ NoWork)
  let best := kept.foldl selectHigherPriority none
  let nested :=
    match s.nextFlushedRoot, best with
    | some prev, some b => if prev = b.id then s.nestedUpdateCount + 1 else 0
    | _, _ => 0
  { s with
    scheduledRoots := kept
    nextFlushedRoot := best.map SchedRoot.id
    nextFlushedExpirationTime :=
      match best with
      | some b => b.remainingExpirationTime
      | none => NoWork
    nestedUpdateCount := nested }

/-- `addRootToSchedule`: a root with `nextScheduledRoot === null` (not
in the ring) is appended with the given time; a root already scheduled
only has its `remainingExpirationTime` lowered, never raised. -/
def addRootToSchedule (s : SchedulerState) (rootId t : Nat) : SchedulerState :=
  if s.scheduledRoots.all (fun r => r.id ≠ rootId) then
    { s with scheduledRoots := s.scheduledRoots ++ [⟨rootId, t⟩] }
  else
    { s with
      scheduledRoots := s.scheduledRoots.map (fun r =>
        if r.id = rootId ∧ (r.remainingExpirationTime = NoWork ∨ t < r.remainingExpirationTime)
        then { r with remainingExpirationTime := t }
        else r) }

/-- What `requestWork` does after updating the schedule: nothing while
rendering, an immediate unbatched flush, a synchronous `performWork`,
or a deferred callback at the given expiration time. -/
inductive RequestWorkAction where
  | noAction
  | flushUnbatchedSync
  | performSyncWork
  | scheduleDeferredCallback (expirationTime : Nat)
deriving Repr, DecidableEq

def nestedUpdateInvariantMessage : String :=
  "Maximum update depth exceeded. This can happen when a component repeatedly calls setState inside componentWillUpdate or componentDidUpdate. React limits the number of nested updates to prevent infinite loops."

/-- The follow-up `requestWork` chooses after updating the schedule:
return while rendering (work picked up at the end of the batch), flush
immediately inside `unbatchedUpdates`, return inside a batch,
`performWork` synchronously for `Sync` work, else schedule a deferred
callback with a timeout for the expiration time. -/
def requestWorkAction (s' : SchedulerState) (t : Nat) : RequestWorkAction :=
  if s'.isRendering then .noAction
  else if s'.isBatchingUpdates then
    if s'.isUnbatchingUpdates then .flushUnbatchedSync else .noAction
  else if t = Sync then .performSyncWork
  else .scheduleDeferredCallback t

/-- `requestWork(root, expirationTime)`: the nested-update guard throws
its invariant violation when `nestedUpdateCount` exceeds
`NESTED_UPDATE_LIMIT`; otherwise the root is added to the schedule and
the follow-up action is chosen by the rendering/batching flags and by
whether the work is synchronous. -/
def requestWork (s : SchedulerState) (rootId t : Nat) :
    Except String (SchedulerState × RequestWorkAction) :=
  if s.nestedUpdateCount > NESTED_UPDATE_LIMIT then
    .error nestedUpdateInvariantMessage
  else
    let s' := addRootToSchedule s rootId t
    .ok (s', requestWorkAction s' t)

/-- A captured value as inspected by the `HostRoot` arm of
`unwindUnitOfWork`: its tag, the identity of the thrown value (the
promise for blockers and plain promises, the error otherwise), and its
source fiber. -/
structure UnwindCapturedValue where
  tag : Nat
  valueId : Nat
  sourceId : Option Nat
deriving Repr, DecidableEq

/-- Side effects the `HostRoot` arm performs while iterating the
captured values: boundary updates for blockers (the loading update and
ancestor bump at `slightlyHigherPriority`, the revert update at the
render time), and error logging plus the unmount-the-tree update for
errors. -/
inductive UnwindEvent where
  | insertLoadingUpdate (boundaryId time : Nat)
  | insertRevertUpdate (boundaryId time : Nat)
  | bumpAncestorPriorities (boundaryId time : Nat)
  | logCapturedError (valueId : Nat)
  | insertUnmountRootUpdate (time : Nat)
deriving Repr, DecidableEq

/-- The resolution callback registered on `Promise.race(blockers)`. Its
closure captures the root and `retryTime` — the local bound to
`nextRenderExpirationTime` at block time — as plain values; nothing
about the state at resolution time enters it. -/
structure RetryCallback where
  rootId : Nat
  retryTime : Nat
deriving Repr, DecidableEq

/-- Accumulator of the loop over `allValues`. `firstUncaughtError`
mirrors `didThrowUncaughtError`/`firstUncaughtError` (set once). -/
structure HostRootUnwindState where
  blockers : List Nat
  shouldRetry : Bool
  firstUncaughtError : Option Nat
  events : List UnwindEvent
deriving Repr, DecidableEq

open ReactCapturedValue in
/-- The `for` loop of the `HostRoot` arm. `T` is
`nextRenderExpirationTime`; `slightlyHigherPriority` is `T - 1`.
Blockers demand a source fiber (invariant) and push their promise;
plain promises only push; unknown values are retagged as errors and
fall through to logging plus the unmount update; any other tag hits the
`Unknown type of captured value` invariant. -/
def hostRootUnwindLoop (T : Nat) (st : HostRootUnwindState) :
    List UnwindCapturedValue → Except String HostRootUnwindState
  | [] => .ok st
  | v :: rest =>
    if v.tag = BlockerType then
      match v.sourceId with
      | none =>
        .error "Expected blocker effect to have a source fiber. This error is likely caused by a bug in React. Please file an issue."
      | some boundary =>
        hostRootUnwindLoop T
          { st with
            blockers := st.blockers ++ [v.valueId]
            events := st.events ++
              [.insertLoadingUpdate boundary (T - 1), .insertRevertUpdate boundary T,
                .bumpAncestorPriorities boundary (T - 1)] }
          rest
    else if v.tag = PromiseType then
      hostRootUnwindLoop T { st with blockers := st.blockers ++ [v.valueId] } rest
    else if v.tag = UnknownType ∨ v.tag = ErrorType then
      hostRootUnwindLoop T
        { st with
          shouldRetry := true
          firstUncaughtError :=
            match st.firstUncaughtError with
            | some e => some e
            | none => some v.valueId
          events := st.events ++ [.logCapturedError v.valueId, .insertUnmountRootUpdate T] }
        rest
    else
      .error "Unknown type of captured value. This error is likely caused by a bug in React. Please file an issue."

/-- Result of the `HostRoot` arm after the loop: when any blockers
accumulated, `root.didBlock` is set and the callback
`() => { root.didBlock = false; requestWork(root, retryTime); }` is
registered on the race of the blockers, with `retryTime` the
`nextRenderExpirationTime` captured at block time. -/
structure HostRootUnwindResult where
  didBlockSet : Bool
  retryCallback : Option RetryCallback
  shouldRetry : Bool
  firstUncaughtError : Option Nat
  events : List UnwindEvent
deriving Repr, DecidableEq

def unwindHostRootCapturedValues (rootId T : Nat) (allValues : List UnwindCapturedValue) :
    Except String HostRootUnwindResult :=
  match hostRootUnwindLoop T ⟨[], false, none, []⟩ allValues with
  | .error e => .error e
  | .ok st =>
    if st.blockers ≠ [] then
      .ok
        { didBlockSet := true
          retryCallback := some ⟨rootId, T⟩
          shouldRetry := st.shouldRetry
          firstUncaughtError := st.firstUncaughtError
          events := st.events }
    else
      .ok
        { didBlockSet := false
          retryCallback := none
          shouldRetry := st.shouldRetry
          firstUncaughtError := st.firstUncaughtError
          events := st.events }

/-- Invoking the registered callback once the race resolves: it clears
`root.didBlock` and calls `requestWork(root, retryTime)` on whatever
the scheduler state `s` is at resolution time — the expiration time it
passes is the one stored in the closure. -/
def invokeRetryCallback (cb : RetryCallback) (s : SchedulerState) :
    Except String (SchedulerState × RequestWorkAction) :=
  requestWork s cb.rootId cb.retryTime

end ReactFiberScheduler

section Claims

open ReactFiberLane ReactFiberExpirationTime ReactFiberPendingWork ReactCapturedValue
  ReactFiberScheduler

/-- C10: `createCapturedValue` is idempotent — a value that already
carries the `REACT_CAPTURED_VALUE` marker is returned unchanged for any
source fiber, so re-capturing a captured value (with any later source)
cannot overwrite its tag, source, boundary, or stack. -/
theorem createCapturedValue_idempotent :
    (∀ (cv : CapturedValueR) (s : Option SourceFiber),
        createCapturedValue (.captured cv) s = cv) ∧
      ∀ (x : JSValue) (s s' : Option SourceFiber),
        createCapturedValue (.captured (createCapturedValue x s)) s' =
          createCapturedValue x s :=
  ⟨fun _ _ => rfl, fun _ _ _ => rfl⟩

/-- C7: on a stack of depth at least 2 whose top frame holds values
`vs`, `popFrameAndBubbleValues` pops exactly one frame and leaves the
new top frame holding its previous contents followed by `vs` in order
(exactly `vs` when it held none), losing and reordering nothing; on the
empty stack it signals the missing-frame invariant instead of
proceeding. -/
theorem popFrameAndBubbleValues_spec :
    (∀ (values : List CapturedValueR) (previousFrame : Frame) (rest : List Frame),
        popFrameAndBubbleValues (some values :: previousFrame :: rest) =
          .ok (some (previousFrame.getD [] ++ values) :: rest)) ∧
      popFrameAndBubbleValues [] =
        .error "Expected a current frame. This error is likely caused by a bug in React. Please file an issue." := by
  refine ⟨fun values previousFrame rest => ?_, rfl⟩
  cases previousFrame <;> rfl

/-- C8 (code bug): the `while ((lanes & 1) === 0)` loop of
`pickArbitraryLane` never modifies `lanes`, so for the mask `2` (lowest
set lane would be `2`) the loop condition stays true and the function
never returns, no matter how many iterations it is allowed. -/
theorem pickArbitraryLane_diverges_on_two :
    ∀ fuel : Nat, pickArbitraryLane fuel 2 = none := by
  have loop : ∀ fuel lane, pickArbitraryLaneLoop fuel 2 lane = none := by
    intro fuel
    induction fuel with
    | zero => intro lane; rfl
    | succ n ih =>
      intro lane
      show pickArbitraryLaneLoop (n + 1) 2 lane = none
      rw [pickArbitraryLaneLoop]
      simp only [show (2 : Nat) &&& 1 = 0 from rfl, if_pos rfl]
      exact ih _
  intro fuel
  show pickArbitraryLane fuel 2 = none
  rw [pickArbitraryLane]
  simp only [if_pos (by decide : (2 : Nat) ≠ 0)]
  exact loop fuel 1

/-- C5: `findHighestPriorityRoot` increments the nested-update counter
exactly when it selects a non-null root identical to the previous
call's selection and resets it to zero in every other case; and
`requestWork` throws the maximum-update-depth invariant violation
exactly when the counter has exceeded `NESTED_UPDATE_LIMIT` (10). -/
theorem nested_update_guard :
    ∀ (s : SchedulerState) (rootId t : Nat),
      ((findHighestPriorityRoot s).nestedUpdateCount =
        if (findHighestPriorityRoot s).nextFlushedRoot ≠ none ∧
            s.nextFlushedRoot = (findHighestPriorityRoot s).nextFlushedRoot
        then s.nestedUpdateCount + 1 else 0) ∧
      (requestWork s rootId t = .error nestedUpdateInvariantMessage ↔
        NESTED_UPDATE_LIMIT < s.nestedUpdateCount) := by
  intro s rootId t
  constructor
  · have key : ∀ (prev : Option Nat) (best : Option SchedRoot) (c : Nat),
        (match prev, best with
          | some p, some b => if p = b.id then c + 1 else 0
          | _, _ => 0) =
        if best.map SchedRoot.id ≠ none ∧ prev = best.map SchedRoot.id then c + 1 else 0 := by
      intro prev best c
      cases prev with
      | none => cases best <;> simp
      | some p =>
        cases best with
        | none => simp
        | some b => by_cases hpb : p = b.id <;> simp [hpb]
    exact key s.nextFlushedRoot _ s.nestedUpdateCount
  · by_cases hc : s.nestedUpdateCount > NESTED_UPDATE_LIMIT
    · simp [requestWork, hc]
    · simp [requestWork, hc]

/-- Witness for C5: a repeat selection of root 1 with the counter
already past the bound increments it again, and `requestWork` then
throws the invariant violation. -/
theorem nested_update_guard_witness :
    (findHighestPriorityRoot
        (SchedulerState.mk [SchedRoot.mk 1 5] (some 1) 5 11 false false false)).nestedUpdateCount =
        12 ∧
      requestWork (SchedulerState.mk [SchedRoot.mk 1 5] (some 1) 5 11 false false false) 2 3 =
        .error nestedUpdateInvariantMessage := by
  refine ⟨?_, ?_⟩
  · rw [(nested_update_guard
      (SchedulerState.mk [SchedRoot.mk 1 5] (some 1) 5 11 false false false) 2 3).1]
    rfl
  · exact (nested_update_guard
      (SchedulerState.mk [SchedRoot.mk 1 5] (some 1) 5 11 false false false) 2 3).2.mpr
      (by decide)

/-- C3: when the host root unwinds a render pass at
`nextRenderExpirationTime = T` whose captured values include a blocker
or promise, the callback registered on the race of the blockers
reschedules the same root at exactly `T` — the closure stores the
priority captured at block time, and invoking it calls `requestWork`
with that stored time, never one recomputed at resolution time. -/
theorem retry_reschedules_at_original_time :
    ∀ (rootId T : Nat) (allValues : List UnwindCapturedValue),
      (∀ v ∈ allValues,
          v.tag = BlockerType ∨ v.tag = PromiseType ∨ v.tag = UnknownType ∨ v.tag = ErrorType) →
      (∀ v ∈ allValues, v.tag = BlockerType → v.sourceId ≠ none) →
      (∃ v ∈ allValues, v.tag = BlockerType ∨ v.tag = PromiseType) →
      ∃ res, unwindHostRootCapturedValues rootId T allValues = .ok res ∧
        res.retryCallback = some ⟨rootId, T⟩ ∧
        ∀ s : SchedulerState, invokeRetryCallback ⟨rootId, T⟩ s = requestWork s rootId T := by
  have loop :
      ∀ (T : Nat) (values : List UnwindCapturedValue) (st : HostRootUnwindState),
        (∀ v ∈ values,
            v.tag = BlockerType ∨ v.tag = PromiseType ∨ v.tag = UnknownType ∨ v.tag = ErrorType) →
        (∀ v ∈ values, v.tag = BlockerType → v.sourceId ≠ none) →
        ∃ st', hostRootUnwindLoop T st values = .ok st' ∧
          st'.blockers = st.blockers ++
            (values.filter fun v => v.tag == BlockerType || v.tag == PromiseType).map
              UnwindCapturedValue.valueId := by
    intro T values
    induction values with
    | nil => exact fun st _ _ => ⟨st, rfl, by simp⟩
    | cons v rest ih =>
      intro st h1 h2
      have h1' := fun w hw => h1 w (List.mem_cons_of_mem _ hw)
      have h2' := fun w hw => h2 w (List.mem_cons_of_mem _ hw)
      rcases h1 v (List.mem_cons_self _ _) with hB | hP | hU | hE
      · have hs : v.sourceId ≠ none := h2 v (List.mem_cons_self _ _) hB
        rcases hv : v.sourceId with _ | boundary
        · exact absurd hv hs
        · obtain ⟨st', hok, hbl⟩ := ih
            { st with
              blockers := st.blockers ++ [v.valueId]
              events := st.events ++
                [.insertLoadingUpdate boundary (T - 1), .insertRevertUpdate boundary T,
                  .bumpAncestorPriorities boundary (T - 1)] } h1' h2'
          refine ⟨st', ?_, ?_⟩
          · simp only [hostRootUnwindLoop, if_pos hB, hv]
            exact hok
          · rw [hbl]
            simp [List.filter_cons, hB, BlockerType]
      · have hnB : ¬v.tag = BlockerType := by rw [hP]; decide
        obtain ⟨st', hok, hbl⟩ := ih { st with blockers := st.blockers ++ [v.valueId] } h1' h2'
        refine ⟨st', ?_, ?_⟩
        · simp only [hostRootUnwindLoop, if_neg hnB, if_pos hP]
          exact hok
        · rw [hbl]
          simp [List.filter_cons, hP, PromiseType, BlockerType]
      · have hnB : ¬v.tag = BlockerType := by rw [hU]; decide
        have hnP : ¬v.tag = PromiseType := by rw [hU]; decide
        obtain ⟨st', hok, hbl⟩ := ih
          { st with
            shouldRetry := true
            firstUncaughtError :=
              match st.firstUncaughtError with
              | some e => some e
              | none => some v.valueId
            events := st.events ++ [.logCapturedError v.valueId, .insertUnmountRootUpdate T] }
          h1' h2'
        refine ⟨st', ?_, ?_⟩
        · simp only [hostRootUnwindLoop, if_neg hnB, if_neg hnP, if_pos (Or.inl hU)]
          exact hok
        · rw [hbl]
          simp [List.filter_cons, hU, UnknownType, BlockerType, PromiseType]
      · have hnB : ¬v.tag = BlockerType := by rw [hE]; decide
        have hnP : ¬v.tag = PromiseType := by rw [hE]; decide
        obtain ⟨st', hok, hbl⟩ := ih
          { st with
            shouldRetry := true
            firstUncaughtError :=
              match st.firstUncaughtError with
              | some e => some e
              | none => some v.valueId
            events := st.events ++ [.logCapturedError v.valueId, .insertUnmountRootUpdate T] }
          h1' h2'
        refine ⟨st', ?_, ?_⟩
        · simp only [hostRootUnwindLoop, if_neg hnB, if_neg hnP, if_pos (Or.inr hE)]
          exact hok
        · rw [hbl]
          simp [List.filter_cons, hE, ErrorType, BlockerType, PromiseType]
  intro rootId T allValues h1 h2 h3
  rcases loop T allValues ⟨[], false, none, []⟩ h1 h2 with ⟨st', hok, hbl⟩
  have hne : st'.blockers ≠ [] := by
    rcases h3 with ⟨v, hv, htag⟩
    rw [hbl]
    have hp : (v.tag == BlockerType || v.tag == PromiseType) = true := by
      rcases htag with h | h <;> simp [h]
    have hmem : v.valueId ∈
        (allValues.filter fun v => v.tag == BlockerType || v.tag == PromiseType).map
          UnwindCapturedValue.valueId :=
      List.mem_map_of_mem _ (List.mem_filter.2 ⟨hv, hp⟩)
    simp only [List.nil_append]
    exact List.ne_nil_of_mem hmem
  refine ⟨{ didBlockSet := true
            retryCallback := some ⟨rootId, T⟩
            shouldRetry := st'.shouldRetry
            firstUncaughtError := st'.firstUncaughtError
            events := st'.events }, ?_, rfl, fun s => rfl⟩
  simp only [unwindHostRootCapturedValues, hok, if_pos hne]

/-- Witness for C3 at a concrete input: a single blocker captured at
render time 5 on root 1. -/
theorem retry_reschedules_at_original_time_witness :
    ∃ res, unwindHostRootCapturedValues 1 5 [⟨BlockerType, 42, some 7⟩] = .ok res ∧
      res.retryCallback = some ⟨1, 5⟩ ∧
      ∀ s : SchedulerState, invokeRetryCallback ⟨1, 5⟩ s = requestWork s 1 5 :=
  retry_reschedules_at_original_time 1 5 [⟨BlockerType, 42, some 7⟩]
    (by intro v hv; simp at hv; subst hv; exact Or.inl rfl)
    (by intro v hv; simp at hv; subst hv; intro _; simp)
    ⟨⟨BlockerType, 42, some 7⟩, by simp, Or.inl rfl⟩

/-- C6 counterexample: on the sorted ledger holding the existing
entries `5` and `7`, `addPendingWork` at time `4` finds no matching
bucket, flags entry `5` and breaks there, so the pre-existing entry
`7` — whose expiration time is also `>= 4` — comes back with
`needsRetry` still false, contrary to the claim that every existing
lower-or-equal-priority entry is flagged. The first conjunct records
the full result (the fresh entry at `4` is inserted unblocked, as the
claim allows); the refutation in the second conjunct quantifies only
over the output entries carrying the pre-existing expiration times
`5` and `7`, both `>= 4`, and so never touches the fresh entry. -/
theorem addPendingWork_counterexample :
    addPendingWork 4
        [{ expirationTime := 5, isBlocked := false, needsRetry := false, isInteractive := true },
          { expirationTime := 7, isBlocked := false, needsRetry := false, isInteractive := true }] =
      [{ expirationTime := 4, isBlocked := false, needsRetry := false, isInteractive := true },
        { expirationTime := 5, isBlocked := false, needsRetry := true, isInteractive := true },
        { expirationTime := 7, isBlocked := false, needsRetry := false, isInteractive := true }] ∧
      ¬∀ w ∈ addPendingWork 4
          [{ expirationTime := 5, isBlocked := false, needsRetry := false, isInteractive := true },
            { expirationTime := 7, isBlocked := false, needsRetry := false, isInteractive := true }],
        w.expirationTime = 5 ∨ w.expirationTime = 7 → w.needsRetry = true := by decide

/-- C6 (amended): on a strictly ascending ledger, `addPendingWork(root, t)`
leaves every entry before the first entry with `expirationTime >= t`
unchanged; when an entry with time exactly `t` exists, it and every
entry after it get `needsRetry` forced and nothing is inserted; when no
such entry exists, a fresh unblocked entry is inserted at the sorted
position and only the entry immediately after it (the first one
greater than `t`, if any) gets `needsRetry` forced, the walk breaking
before the rest; ascending order is preserved throughout. -/
theorem addPendingWork_sorted_spec :
    ∀ (t : Nat) (l : List PendingWork), SortedLedger l →
      addPendingWork t l =
        l.takeWhile (fun w => decide (w.expirationTime < t)) ++
          (match l.dropWhile (fun w => decide (w.expirationTime < t)) with
           | [] => [freshWork t]
           | w :: rest =>
             if w.expirationTime = t then flagRetry w :: rest.map flagRetry
             else freshWork t :: flagRetry w :: rest) := by
  have flagAll : ∀ (t : Nat) (rest : List PendingWork),
      (∀ w ∈ rest, t ≤ w.expirationTime) →
      addPendingWorkLoop t true rest = rest.map flagRetry := by
    intro t rest
    induction rest with
    | nil => intro _; rfl
    | cons w ws ih =>
      intro h
      have hw : t ≤ w.expirationTime := h w (List.mem_cons_self _ _)
      simp only [addPendingWorkLoop, if_pos hw, Bool.true_or, List.map_cons]
      rw [if_neg (by simp)]
      exact congrArg _ (ih fun u hu => h u (List.mem_cons_of_mem _ hu))
  intro t l
  induction l with
  | nil => intro _; rfl
  | cons w ws ih =>
    intro hs
    have hall : ∀ u ∈ ws, w.expirationTime < u.expirationTime := (List.pairwise_cons.1 hs).1
    have hs' : SortedLedger ws := (List.pairwise_cons.1 hs).2
    rcases Nat.lt_trichotomy w.expirationTime t with hlt | heq | hgt
    · have h1 : ¬t ≤ w.expirationTime := Nat.not_le.2 hlt
      have h2 : (w.expirationTime == t) = false := by
        simp [Nat.ne_of_lt hlt]
      simp only [addPendingWork] at ih
      simp only [addPendingWork, addPendingWorkLoop, if_neg h1, h2, Bool.false_or]
      rw [if_neg (by simp [Nat.not_lt.2 (Nat.le_of_lt hlt)])]
      rw [List.takeWhile_cons, List.dropWhile_cons]
      simp only [decide_eq_true hlt, if_pos rfl, List.cons_append]
      exact congrArg _ (ih hs')
    · have h1 : t ≤ w.expirationTime := Nat.le_of_eq heq.symm
      have h2 : (w.expirationTime == t) = true := by simp [heq]
      have hpred : decide (w.expirationTime < t) = false := by simp [heq]
      simp only [addPendingWork, addPendingWorkLoop, if_pos h1, h2, Bool.false_or]
      rw [if_neg (by simp)]
      rw [List.takeWhile_cons, List.dropWhile_cons, hpred]
      simp only [Bool.false_eq_true, if_false, if_pos heq, List.nil_append]
      exact congrArg _ (flagAll t ws fun u hu => heq ▸ Nat.le_of_lt (hall u hu))
    · have h1 : t ≤ w.expirationTime := Nat.le_of_lt hgt
      have h2 : (w.expirationTime == t) = false := by
        simp [Nat.ne_of_gt hgt]
      have hpred : decide (w.expirationTime < t) = false := by
        simp [Nat.not_lt.2 h1]
      simp only [addPendingWork, addPendingWorkLoop, if_neg (Nat.not_le.2 hgt)]
      rw [if_pos ?pos]
      case pos => exact ⟨by simp [h2], hgt⟩
      rw [List.takeWhile_cons, List.dropWhile_cons, hpred]
      simp only [Bool.false_eq_true, if_false, List.nil_append]
      rw [if_pos h1, if_neg (Nat.ne_of_gt hgt)]
      rfl

/-- Witness for C6's amended theorem on the counterexample ledger. -/
theorem addPendingWork_sorted_spec_witness :
    SortedLedger
        [{ expirationTime := 5, isBlocked := false, needsRetry := false, isInteractive := true },
          { expirationTime := 7, isBlocked := false, needsRetry := false, isInteractive := true }] ∧
      addPendingWork 4
          [{ expirationTime := 5, isBlocked := false, needsRetry := false, isInteractive := true },
            { expirationTime := 7, isBlocked := false, needsRetry := false, isInteractive := true }] =
        [{ expirationTime := 4, isBlocked := false, needsRetry := false, isInteractive := true },
          { expirationTime := 5, isBlocked := false, needsRetry := true, isInteractive := true },
          { expirationTime := 7, isBlocked := false, needsRetry := false, isInteractive := true }] := by
  have hs : SortedLedger
      [{ expirationTime := 5, isBlocked := false, needsRetry := false, isInteractive := true },
        { expirationTime := 7, isBlocked := false, needsRetry := false, isInteractive := true }] := by
    unfold SortedLedger
    decide
  exact ⟨hs, by rw [addPendingWork_sorted_spec 4 _ hs]; rfl⟩

theorem ldiff_zero_left (x : Nat) : Nat.ldiff 0 x = 0 := by
  apply Nat.eq_of_testBit_eq
  intro i
  simp [Nat.testBit_ldiff, Nat.zero_testBit]

theorem ldiff_zero_bits {a b : Nat} (h : Nat.ldiff a b = 0) :
    ∀ i, a.testBit i = true → b.testBit i = true := by
  intro i hi
  have hcongr := congrArg (fun x => Nat.testBit x i) h
  simp only [Nat.testBit_ldiff, Nat.zero_testBit, hi, Bool.true_and] at hcongr
  cases hb : b.testBit i with
  | false => rw [hb] at hcongr; simp at hcongr
  | true => rfl

theorem ldiff_zero_of_bits {a b : Nat} (h : ∀ i, a.testBit i = true → b.testBit i = true) :
    Nat.ldiff a b = 0 := by
  apply Nat.eq_of_testBit_eq
  intro i
  simp only [Nat.testBit_ldiff, Nat.zero_testBit]
  cases ha : a.testBit i with
  | false => simp
  | true => simp [h i ha]

/-- C9: starting from a root with empty `suspendedLanes` and
`pingedLanes`, every sequence of `markRootUpdated`, `markRootSuspended`,
`markRootPinged`, `markRootExpired` and `markRootFinished` keeps
`pingedLanes & ~suspendedLanes` empty — pinged lanes are always a
subset of the suspended lanes. -/
theorem lanes_pinged_subset_suspended :
    ∀ (ops : List LaneOp) (root : RootLanes),
      root.suspendedLanes = NoLanes → root.pingedLanes = NoLanes →
      Nat.ldiff (applyLaneOps root ops).pingedLanes
        (applyLaneOps root ops).suspendedLanes = NoLanes := by
  have step : ∀ (root : RootLanes) (op : LaneOp),
      Nat.ldiff root.pingedLanes root.suspendedLanes = 0 →
      Nat.ldiff (applyLaneOp root op).pingedLanes (applyLaneOp root op).suspendedLanes = 0 := by
    intro root op hInv
    have hsub := ldiff_zero_bits hInv
    cases op with
    | update l =>
      simp only [applyLaneOp, markRootUpdated, NoLanes]
      exact ldiff_zero_left _
    | suspend s =>
      simp only [applyLaneOp, markRootSuspended]
      apply ldiff_zero_of_bits
      intro i hi
      rw [Nat.testBit_ldiff, Bool.and_eq_true] at hi
      rw [Nat.testBit_lor]
      obtain ⟨hpinged, -⟩ := hi
      rw [hsub i hpinged]
      rfl
    | ping p t =>
      simp only [applyLaneOp, markRootPinged]
      apply ldiff_zero_of_bits
      intro i hi
      rw [Nat.testBit_lor, Bool.or_eq_true] at hi
      rcases hi with hpinged | hps
      · exact hsub i hpinged
      · rw [Nat.testBit_land, Bool.and_eq_true] at hps
        exact hps.2
    | expire e =>
      simp only [applyLaneOp, markRootExpired]
      exact hInv
    | finish r =>
      simp only [applyLaneOp, markRootFinished]
      by_cases hf : root.pendingLanes &&& r ≠ NoLanes
      · rw [if_pos hf]
        exact hInv
      · rw [if_neg hf]
        apply ldiff_zero_of_bits
        intro i hi
        rw [Nat.testBit_land, Bool.and_eq_true] at hi
        rw [Nat.testBit_land]
        obtain ⟨hpinged, hr⟩ := hi
        rw [hsub i hpinged, hr]
        rfl
  have main : ∀ (ops : List LaneOp) (root : RootLanes),
      Nat.ldiff root.pingedLanes root.suspendedLanes = 0 →
      Nat.ldiff (applyLaneOps root ops).pingedLanes
        (applyLaneOps root ops).suspendedLanes = 0 := by
    intro ops
    induction ops with
    | nil => exact fun root h => h
    | cons op rest ih => exact fun root h => ih _ (step root op h)
  intro ops root hs hp
  exact main ops root (by rw [hp]; exact ldiff_zero_left _)

/-- Witness for C9 on a concrete root and operation sequence. -/
theorem lanes_pinged_subset_suspended_witness :
    (RootLanes.mk SyncLane NoLanes NoLanes NoLanes NoLanes).suspendedLanes = NoLanes ∧
      (RootLanes.mk SyncLane NoLanes NoLanes NoLanes NoLanes).pingedLanes = NoLanes ∧
      Nat.ldiff
          (applyLaneOps (RootLanes.mk SyncLane NoLanes NoLanes NoLanes NoLanes)
            [.suspend 1, .ping 3 0, .finish 1]).pingedLanes
          (applyLaneOps (RootLanes.mk SyncLane NoLanes NoLanes NoLanes NoLanes)
            [.suspend 1, .ping 3 0, .finish 1]).suspendedLanes = NoLanes :=
  ⟨rfl, rfl,
    lanes_pinged_subset_suspended [.suspend 1, .ping 3 0, .finish 1]
      (RootLanes.mk SyncLane NoLanes NoLanes NoLanes NoLanes) rfl rfl⟩

theorem and_mask_zero_right (x m mask : Nat) (hm : m &&& mask = 0) : (x &&& m) &&& mask = 0 := by
  rw [Nat.land_assoc, hm]
  apply Nat.eq_of_testBit_eq
  intro i
  simp [Nat.testBit_land, Nat.zero_testBit]

theorem and_mask_zero_left (m x mask : Nat) (hm : m &&& mask = 0) : (m &&& x) &&& mask = 0 := by
  rw [Nat.land_comm m x]
  exact and_mask_zero_right x m mask hm

theorem const_and_zero (c x mask : Nat) (hc : c &&& mask = c) (hx : x &&& mask = 0) :
    c &&& x = 0 := by
  rw [← hc, Nat.land_assoc, Nat.land_comm mask x, hx]
  apply Nat.eq_of_testBit_eq
  intro i
  simp [Nat.testBit_land, Nat.zero_testBit]

theorem ldiff_and_mask_zero (a b mask : Nat) (ha : a &&& mask = 0) :
    Nat.ldiff a b &&& mask = 0 := by
  apply Nat.eq_of_testBit_eq
  intro i
  have hcongr := congrArg (fun x => Nat.testBit x i) ha
  simp only [Nat.testBit_land, Nat.zero_testBit] at hcongr
  simp only [Nat.testBit_land, Nat.testBit_ldiff, Nat.zero_testBit]
  cases hA : a.testBit i with
  | false => simp
  | true =>
    rw [hA] at hcongr
    simp only [Bool.true_and] at hcongr
    simp [hcongr]

/-- Every lane returned by `getHighestPriorityLanes` is drawn from its
argument, so an argument disjoint from the idle/offscreen lanes yields
a result disjoint from them; the only idle-selecting branches require
an idle lane in the argument, and the fallback returns the argument
itself. -/
theorem getHighestPriorityLanes_no_idle (lanes : Lanes)
    (h : lanes &&& (IdleBumpedLane ||| IdleUpdateLanes ||| OffscreenLane) = 0) :
    (getHighestPriorityLanes lanes).1 &&& (IdleBumpedLane ||| IdleUpdateLanes ||| OffscreenLane) = 0 := by
  unfold getHighestPriorityLanes
  by_cases h1 : SyncLane &&& lanes ≠ NoLanes
  · rw [if_pos h1]; decide
  rw [if_neg h1]
  by_cases h2 : SyncBatchedLane &&& lanes ≠ NoLanes
  · rw [if_pos h2]; decide
  rw [if_neg h2]
  by_cases h3 : InputDiscreteBumpedLane &&& lanes ≠ NoLanes
  · rw [if_pos h3]; decide
  rw [if_neg h3]
  by_cases h4 : InputDiscreteLanes &&& lanes ≠ NoLanes
  · rw [if_pos h4]; exact and_mask_zero_left _ _ _ (by decide)
  rw [if_neg h4]
  by_cases h5 : InputContinuousBumpedLane &&& lanes ≠ NoLanes
  · rw [if_pos h5]; decide
  rw [if_neg h5]
  by_cases h6 : InputContinuousLanes &&& lanes ≠ NoLanes
  · rw [if_pos h6]; exact and_mask_zero_left _ _ _ (by decide)
  rw [if_neg h6]
  by_cases h7 : DefaultBumpedLane &&& lanes ≠ NoLanes
  · rw [if_pos h7]; decide
  rw [if_neg h7]
  by_cases h8 : DefaultLanes &&& lanes ≠ NoLanes
  · rw [if_pos h8]; exact and_mask_zero_left _ _ _ (by decide)
  rw [if_neg h8]
  by_cases h9 : TransitionShortBumpedLane &&& lanes ≠ NoLanes
  · rw [if_pos h9]; decide
  rw [if_neg h9]
  by_cases h10 : TransitionShortLanes &&& lanes ≠ NoLanes
  · rw [if_pos h10]; exact and_mask_zero_left _ _ _ (by decide)
  rw [if_neg h10]
  by_cases h11 : TransitionLongBumpedLane &&& lanes ≠ NoLanes
  · rw [if_pos h11]; decide
  rw [if_neg h11]
  by_cases h12 : TransitionLongLanes &&& lanes ≠ NoLanes
  · rw [if_pos h12]; exact and_mask_zero_left _ _ _ (by decide)
  rw [if_neg h12]
  have h13 : ¬IdleBumpedLane &&& lanes ≠ NoLanes := fun hne =>
    hne (const_and_zero _ _ _ (by decide) h)
  rw [if_neg h13]
  have h14 : ¬IdleUpdateLanes &&& lanes &&& lanes ≠ NoLanes := by
    intro hne
    apply hne
    have hz : IdleUpdateLanes &&& lanes = 0 :=
      const_and_zero IdleUpdateLanes lanes (IdleBumpedLane ||| IdleUpdateLanes ||| OffscreenLane)
        (by decide) h
    rw [hz]
    exact Nat.zero_and _
  rw [if_neg h14]
  have h15 : ¬OffscreenLane &&& lanes ≠ NoLanes := fun hne =>
    hne (const_and_zero _ _ _ (by decide) h)
  rw [if_neg h15]
  exact h

/-- C2: while any non-idle lane is pending on a root whose expired set
is empty, `getNextLanes` never returns a set containing an idle or
offscreen lane — the result is drawn from the unblocked or pinged
non-idle lanes, or is empty. -/
theorem getNextLanes_no_idle :
    ∀ (root : RootLanes) (prev : Nat),
      root.pendingLanes &&& NonIdleLanes ≠ NoLanes →
      root.expiredLanes = NoLanes →
      (getNextLanes root prev).1 &&& (IdleBumpedLane ||| IdleUpdateLanes ||| OffscreenLane) =
        NoLanes := by
  intro root prev hp he
  have hpending : ¬root.pendingLanes = NoLanes := by
    intro h0
    apply hp
    rw [h0]
    decide
  have hNonIdleMask :
      NonIdleLanes &&& (IdleBumpedLane ||| IdleUpdateLanes ||| OffscreenLane) = 0 := by decide
  have hA : (root.pendingLanes &&& NonIdleLanes) &&&
      (IdleBumpedLane ||| IdleUpdateLanes ||| OffscreenLane) = 0 :=
    and_mask_zero_right _ _ _ hNonIdleMask
  simp only [getNextLanes]
  rw [if_neg hpending, if_neg (by rw [he]; exact fun hne => hne rfl), if_pos hp]
  by_cases hu : Nat.ldiff (root.pendingLanes &&& NonIdleLanes) root.suspendedLanes ≠ NoLanes
  · rw [if_pos hu]
    exact getHighestPriorityLanes_no_idle _ (ldiff_and_mask_zero _ _ _ hA)
  · rw [if_neg hu, if_pos hp]
    exact getHighestPriorityLanes_no_idle _ (and_mask_zero_left _ _ _ hA)

/-- Witness for C2: a root with only the sync lane pending. -/
theorem getNextLanes_no_idle_witness :
    (RootLanes.mk SyncLane NoLanes NoLanes NoLanes NoLanes).pendingLanes &&& NonIdleLanes ≠
        NoLanes ∧
      (RootLanes.mk SyncLane NoLanes NoLanes NoLanes NoLanes).expiredLanes = NoLanes ∧
      (getNextLanes (RootLanes.mk SyncLane NoLanes NoLanes NoLanes NoLanes) DefaultLanePriority).1 &&&
          (IdleBumpedLane ||| IdleUpdateLanes ||| OffscreenLane) = NoLanes :=
  ⟨by decide, rfl,
    getNextLanes_no_idle (RootLanes.mk SyncLane NoLanes NoLanes NoLanes NoLanes)
      DefaultLanePriority (by decide) rfl⟩

theorem runHostCalls_mem {hostOk : HostBehavior} :
    ∀ {cs : List CommitEvent} {e : CommitEvent}, e ∈ (runHostCalls hostOk cs).1 → e ∈ cs := by
  intro cs
  induction cs with
  | nil => intro e he; simp [runHostCalls] at he
  | cons c rest ih =>
    intro e he
    simp only [runHostCalls] at he
    by_cases hc : hostOk c
    · rw [if_pos hc] at he
      rcases hr : runHostCalls hostOk rest with ⟨evs, ok⟩
      rw [hr] at he
      rcases List.mem_cons.1 he with rfl | he
      · exact List.mem_cons_self _ _
      · exact List.mem_cons_of_mem _ (ih (by rw [hr]; exact he))
    · rw [if_neg hc] at he
      simp at he

theorem commitAllEffects_none_eq {calls : EffectNode → List CommitEvent}
    {hostOk : HostBehavior} :
    ∀ {nodes : List EffectNode} {evs : List CommitEvent},
      commitAllEffects calls hostOk nodes = (evs, none) →
      evs = nodes.flatMap (fun n => (runHostCalls hostOk (calls n)).1) ∧
        ∀ n ∈ nodes, (runHostCalls hostOk (calls n)).2 = true := by
  intro nodes
  induction nodes with
  | nil =>
    intro evs h
    simp only [commitAllEffects, Prod.mk.injEq] at h
    exact ⟨h.1.symm, by simp⟩
  | cons n rest ih =>
    intro evs h
    simp only [commitAllEffects] at h
    rcases hr : runHostCalls hostOk (calls n) with ⟨evs0, ok⟩
    rw [hr] at h
    cases ok with
    | true =>
      rcases hc : commitAllEffects calls hostOk rest with ⟨evs1, r⟩
      rw [hc] at h
      simp only [Prod.mk.injEq] at h
      obtain ⟨h1, h2⟩ := h
      subst h2
      obtain ⟨he, hall⟩ := ih hc
      refine ⟨?_, ?_⟩
      · rw [← h1, he, List.flatMap_cons, hr]
      · intro m hm
        rcases List.mem_cons.1 hm with rfl | hm
        · rw [hr]
        · exact hall m hm
    | false => simp at h

theorem commitAllEffects_some_eq {calls : EffectNode → List CommitEvent}
    {hostOk : HostBehavior} :
    ∀ {nodes : List EffectNode} {evs : List CommitEvent} {n : EffectNode}
      {rest : List EffectNode},
      commitAllEffects calls hostOk nodes = (evs, some (n, rest)) →
      ∃ pre, nodes = pre ++ n :: rest ∧
        (∀ m ∈ pre, (runHostCalls hostOk (calls m)).2 = true) ∧
        evs = pre.flatMap (fun m => (runHostCalls hostOk (calls m)).1) ++
          (runHostCalls hostOk (calls n)).1 ∧
        (runHostCalls hostOk (calls n)).2 = false := by
  intro nodes
  induction nodes with
  | nil => intro evs n rest h; simp [commitAllEffects] at h
  | cons hd tl ih =>
    intro evs n rest h
    simp only [commitAllEffects] at h
    rcases hr : runHostCalls hostOk (calls hd) with ⟨evs0, ok⟩
    rw [hr] at h
    cases ok with
    | true =>
      rcases hc : commitAllEffects calls hostOk tl with ⟨evs1, r⟩
      rw [hc] at h
      simp only [Prod.mk.injEq] at h
      obtain ⟨h1, h2⟩ := h
      subst h2
      obtain ⟨pre, htl, hok, hevs, hfail⟩ := ih hc
      refine ⟨hd :: pre, by rw [htl]; rfl, ?_, ?_, hfail⟩
      · intro m hm
        rcases List.mem_cons.1 hm with rfl | hm
        · rw [hr]
        · exact hok m hm
      · rw [← h1, hevs, List.flatMap_cons, hr, List.append_assoc]
    | false =>
      simp only [Prod.mk.injEq, Option.some.injEq] at h
      obtain ⟨h1, h2, h3⟩ := h
      subst h2
      subst h3
      exact ⟨[], rfl, by simp, by rw [← h1, hr]; rfl, by rw [hr]⟩

theorem perNodePassTrace_of_ok {calls : EffectNode → List CommitEvent} {hostOk : HostBehavior}
    {n : EffectNode} (h : (runHostCalls hostOk (calls n)).2 = true) :
    perNodePassTrace calls hostOk n = (runHostCalls hostOk (calls n)).1 := by
  unfold perNodePassTrace
  rcases hr : runHostCalls hostOk (calls n) with ⟨evs, ok⟩
  rw [hr] at h
  cases ok with
  | true => rfl
  | false => simp at h

theorem perNodePassTrace_of_fail {calls : EffectNode → List CommitEvent} {hostOk : HostBehavior}
    {n : EffectNode} (h : (runHostCalls hostOk (calls n)).2 = false) :
    perNodePassTrace calls hostOk n =
      (runHostCalls hostOk (calls n)).1 ++ [.commitPhaseError n.id Sync] := by
  unfold perNodePassTrace
  rcases hr : runHostCalls hostOk (calls n) with ⟨evs, ok⟩
  rw [hr] at h
  cases ok with
  | true => simp at h
  | false => rfl

theorem flatMap_congr_mem {α β : Type} {l : List α} {f g : α → List β}
    (h : ∀ a ∈ l, f a = g a) : l.flatMap f = l.flatMap g := by
  induction l with
  | nil => rfl
  | cons a l ih =>
    rw [List.flatMap_cons, List.flatMap_cons, h a (List.mem_cons_self _ _),
      ih fun b hb => h b (List.mem_cons_of_mem _ hb)]

/-- The wrapped pass equals, node by node, the completed host calls of
each node followed by a `Sync` error dispatch for a node whose handler
threw; no node after a failing one is skipped. -/
theorem commitPassWithRecovery_flatMap (calls : EffectNode → List CommitEvent)
    (hostOk : HostBehavior) :
    ∀ nodes : List EffectNode,
      commitPassWithRecovery calls hostOk nodes =
        nodes.flatMap (perNodePassTrace calls hostOk) := by
  intro nodes
  induction nodes using commitPassWithRecovery.induct calls hostOk with
  | case1 nodes evs h =>
    rw [commitPassWithRecovery]
    split
    · rename_i evs' heq
      rw [h] at heq
      obtain ⟨he, hall⟩ := commitAllEffects_none_eq h
      have : evs' = evs := by
        simp only [Prod.mk.injEq] at heq
        exact heq.1.symm
      rw [this, he]
      exact flatMap_congr_mem fun m hm => (perNodePassTrace_of_ok (hall m hm)).symm
    · rename_i evs' n' rest' heq
      rw [h] at heq
      simp at heq
  | case2 nodes evs n rest h ih =>
    rw [commitPassWithRecovery]
    split
    · rename_i evs' heq
      rw [h] at heq
      simp at heq
    · rename_i evs' n' rest' heq
      rw [h] at heq
      simp only [Prod.mk.injEq, Option.some.injEq] at heq
      obtain ⟨h1, h2, h3⟩ := heq
      subst h1
      subst h2
      subst h3
      obtain ⟨pre, hnodes, hok, hevs, hfail⟩ := commitAllEffects_some_eq h
      rw [ih, hnodes, List.flatMap_append, List.flatMap_cons]
      rw [hevs, perNodePassTrace_of_fail hfail]
      rw [flatMap_congr_mem fun m hm => (perNodePassTrace_of_ok (hok m hm)).symm]
      simp [List.append_assoc]

theorem dispatch_expirationTime :
    ∀ (returnChain : List FiberLite) (fiber : FiberLite) (errorId t : Nat)
      (sc : ScheduledCapture), dispatch fiber returnChain errorId t = some sc →
      sc.expirationTime = t := by
  intro returnChain
  induction returnChain with
  | nil =>
    intro fiber errorId t sc h
    simp only [dispatch] at h
    split at h
    · cases h
      rfl
    · cases h
  | cons f rest ih =>
    intro fiber errorId t sc h
    simp only [dispatch] at h
    split at h
    · split at h
      · cases h
        rfl
      · exact ih fiber errorId t sc h
    · cases h
      rfl
    · exact ih fiber errorId t sc h

/-- C4: during each wrapped commit pass, a node whose handler throws is
reported by dispatching the error at that node at `Sync` priority and
the pass advances to its successor, so the trace is exactly the
concatenation, in list order, of every node's contribution — no later
node is skipped. The dispatch goes through `onCommitPhaseError`, which
is `dispatch` (the render-phase capture walk) at `Sync`, and any
capture it schedules carries the `Sync` expiration time. -/
theorem commit_pass_error_recovery :
    (∀ (calls : EffectNode → List CommitEvent) (hostOk : HostBehavior)
        (nodes : List EffectNode),
        commitPassWithRecovery calls hostOk nodes =
          nodes.flatMap (perNodePassTrace calls hostOk)) ∧
      ∀ (fiber : FiberLite) (returnChain : List FiberLite) (errorId : Nat),
        onCommitPhaseError fiber returnChain errorId =
            dispatch fiber returnChain errorId Sync ∧
          ∀ sc : ScheduledCapture,
            onCommitPhaseError fiber returnChain errorId = some sc →
            sc.expirationTime = Sync :=
  ⟨commitPassWithRecovery_flatMap,
    fun fiber returnChain errorId =>
      ⟨rfl, fun sc h => dispatch_expirationTime returnChain fiber errorId Sync sc h⟩⟩

theorem pass1Calls_shape (n : EffectNode) (e : CommitEvent) (he : e ∈ pass1Calls n) :
    e = .resetTextContent n.id ∨ e = .detachRef n.id ∨ e = .placement n.id ∨
      e = .updateWork n.id ∨ e = .deletion n.id := by
  unfold pass1Calls at he
  rcases List.mem_append.1 he with he | he
  · rcases List.mem_append.1 he with he | he
    · split at he
      · rw [List.mem_singleton.1 he]
        exact Or.inl rfl
      · cases he
    · split at he
      · rw [List.mem_singleton.1 he]
        exact Or.inr (Or.inl rfl)
      · cases he
  · split at he
    · rw [List.mem_singleton.1 he]
      exact Or.inr (Or.inr (Or.inl rfl))
    · split at he
      · rcases List.mem_cons.1 he with rfl | he
        · exact Or.inr (Or.inr (Or.inl rfl))
        · rw [List.mem_singleton.1 he]
          exact Or.inr (Or.inr (Or.inr (Or.inl rfl)))
      · split at he
        · rw [List.mem_singleton.1 he]
          exact Or.inr (Or.inr (Or.inr (Or.inl rfl)))
        · split at he
          · rw [List.mem_singleton.1 he]
            exact Or.inr (Or.inr (Or.inr (Or.inr rfl)))
          · cases he

theorem pass2Calls_shape (n : EffectNode) (e : CommitEvent) (he : e ∈ pass2Calls n) :
    e = .lifeCycles n.id ∨ e = .attachRef n.id := by
  unfold pass2Calls at he
  rcases List.mem_append.1 he with he | he
  · split at he
    · rw [List.mem_singleton.1 he]
      exact Or.inl rfl
    · cases he
  · split at he
    · rw [List.mem_singleton.1 he]
      exact Or.inr rfl
    · cases he

theorem pass_trace_mem (calls : EffectNode → List CommitEvent) (hostOk : HostBehavior)
    (nodes : List EffectNode) {e : CommitEvent}
    (he : e ∈ commitPassWithRecovery calls hostOk nodes) :
    (∃ n, n ∈ nodes ∧ e ∈ calls n) ∨ ∃ id t, e = CommitEvent.commitPhaseError id t := by
  rw [commitPassWithRecovery_flatMap] at he
  rcases List.mem_flatMap.1 he with ⟨n, hn, he⟩
  unfold perNodePassTrace at he
  rcases hr : runHostCalls hostOk (calls n) with ⟨evs, ok⟩
  rw [hr] at he
  cases ok with
  | true => exact Or.inl ⟨n, hn, runHostCalls_mem (by rw [hr]; exact he)⟩
  | false =>
    rcases List.mem_append.1 he with he | he
    · exact Or.inl ⟨n, hn, runHostCalls_mem (by rw [hr]; exact he)⟩
    · rw [List.mem_singleton.1 he]
      exact Or.inr ⟨n.id, Sync, rfl⟩

/-- C1: in the `commitRoot` trace the `root.current = finishedWork`
swap sits strictly after every pass-1 host-mutation event
(`resetAfterCommit` included) and strictly before every pass-2
lifecycle/ref-attach event; every pass-2 event runs with `root.current`
already pointing at the finished tree, whose `alternate` still reaches
the previous current tree; and the root ends with the finished tree as
current. -/
theorem commit_swap_between_passes :
    ∀ (hostOk : HostBehavior) (root : RootModel) (finishedWork : FiberTreeRef)
      (firstEffect : List EffectNode),
      finishedWork.alternate = some root.currentId →
      ∃ pre post,
        (commitRootAnnotated hostOk root finishedWork firstEffect).1 =
          pre ++ (CommitEvent.swapCurrent, finishedWork.id) :: post ∧
        (∀ p ∈ pre, isPass2Event p.1 = false ∧ p.1 ≠ CommitEvent.swapCurrent) ∧
        (∀ p ∈ post, isPass1Event p.1 = false ∧ p.1 ≠ CommitEvent.swapCurrent) ∧
        (∀ p ∈ (commitRootAnnotated hostOk root finishedWork firstEffect).1,
          isPass2Event p.1 = true →
            p.2 = finishedWork.id ∧ finishedWork.alternate = some root.currentId) ∧
        (commitRootAnnotated hostOk root finishedWork firstEffect).2.currentId =
          finishedWork.id := by
  intro hostOk root fw firstEffect halt
  refine ⟨(CommitEvent.prepareForCommit, root.currentId) ::
      ((commitPassWithRecovery pass1Calls hostOk firstEffect).map
          (fun e => (e, root.currentId)) ++
        [(CommitEvent.resetAfterCommit, root.currentId)]),
    (commitPassWithRecovery pass2Calls hostOk firstEffect).map (fun e => (e, fw.id)),
    ?_, ?_, ?_, ?_, rfl⟩
  · simp [commitRootAnnotated, List.append_assoc]
  · intro p hp
    rcases List.mem_cons.1 hp with rfl | hp
    · exact ⟨rfl, by simp⟩
    rcases List.mem_append.1 hp with hp | hp
    · rcases List.mem_map.1 hp with ⟨e, hemem, rfl⟩
      rcases pass_trace_mem _ _ _ hemem with ⟨n, -, hin⟩ | ⟨id, t, rfl⟩
      · rcases pass1Calls_shape n e hin with h | h | h | h | h <;> subst h <;>
          exact ⟨rfl, by simp⟩
      · exact ⟨rfl, by simp⟩
    · rw [List.mem_singleton.1 hp]
      exact ⟨rfl, by simp⟩
  · intro p hp
    rcases List.mem_map.1 hp with ⟨e, hemem, rfl⟩
    rcases pass_trace_mem _ _ _ hemem with ⟨n, -, hin⟩ | ⟨id, t, rfl⟩
    · rcases pass2Calls_shape n e hin with h | h <;> subst h <;> exact ⟨rfl, by simp⟩
    · exact ⟨rfl, by simp⟩
  · intro p hp h2
    simp only [commitRootAnnotated] at hp
    rcases List.mem_append.1 hp with hp | hp
    · rcases List.mem_cons.1 hp with rfl | hp
      · cases h2
      rcases List.mem_map.1 hp with ⟨e, hemem, rfl⟩
      rcases pass_trace_mem _ _ _ hemem with ⟨n, -, hin⟩ | ⟨id, t, heq⟩
      · rcases pass1Calls_shape n e hin with h | h | h | h | h <;> subst h <;> cases h2
      · rw [heq] at h2
        cases h2
    · rcases List.mem_cons.1 hp with rfl | hp
      · cases h2
      rcases List.mem_cons.1 hp with rfl | hp
      · cases h2
      rcases List.mem_map.1 hp with ⟨e, hemem, rfl⟩
      exact ⟨rfl, halt⟩

/-- Witness for C1 with a two-node effect list whose second node's
pass-1 handler throws. -/
theorem commit_swap_between_passes_witness :
    (FiberTreeRef.mk 9 (some 4)).alternate = some (RootModel.mk 4 false).currentId ∧
      ∃ pre post,
        (commitRootAnnotated (fun e => e != CommitEvent.placement 2) (RootModel.mk 4 false)
            (FiberTreeRef.mk 9 (some 4))
            [EffectNode.mk 1 Placement false, EffectNode.mk 2 Placement false]).1 =
          pre ++ (CommitEvent.swapCurrent, (FiberTreeRef.mk 9 (some 4)).id) :: post ∧
        (∀ p ∈ pre, isPass2Event p.1 = false ∧ p.1 ≠ CommitEvent.swapCurrent) ∧
        (∀ p ∈ post, isPass1Event p.1 = false ∧ p.1 ≠ CommitEvent.swapCurrent) ∧
        (∀ p ∈ (commitRootAnnotated (fun e => e != CommitEvent.placement 2) (RootModel.mk 4 false)
            (FiberTreeRef.mk 9 (some 4))
            [EffectNode.mk 1 Placement false, EffectNode.mk 2 Placement false]).1,
          isPass2Event p.1 = true →
            p.2 = (FiberTreeRef.mk 9 (some 4)).id ∧
              (FiberTreeRef.mk 9 (some 4)).alternate = some (RootModel.mk 4 false).currentId) ∧
        (commitRootAnnotated (fun e => e != CommitEvent.placement 2) (RootModel.mk 4 false)
            (FiberTreeRef.mk 9 (some 4))
            [EffectNode.mk 1 Placement false, EffectNode.mk 2 Placement false]).2.currentId =
          (FiberTreeRef.mk 9 (some 4)).id :=
  ⟨rfl,
    commit_swap_between_passes (fun e => e != CommitEvent.placement 2) (RootModel.mk 4 false)
      (FiberTreeRef.mk 9 (some 4))
      [EffectNode.mk 1 Placement false, EffectNode.mk 2 Placement false] rfl⟩

/-- Witness for C4: the second node's placement throws; the pass
dispatches at that node and still processes the third node, and a
commit-phase error dispatched below a catching class boundary is
scheduled at `Sync`. -/
theorem commit_pass_error_recovery_witness :
    commitPassWithRecovery pass2Calls (fun e => e != CommitEvent.lifeCycles 2)
        [EffectNode.mk 1 Update false, EffectNode.mk 2 Update false,
          EffectNode.mk 3 Ref true] =
      [CommitEvent.lifeCycles 1, CommitEvent.commitPhaseError 2 Sync, CommitEvent.attachRef 3] ∧
      onCommitPhaseError (FiberLite.mk 5 .hostComponent false)
          [FiberLite.mk 6 .classComponent true] 9 =
        some (ScheduledCapture.mk 5 6 9 Sync) := by
  constructor
  · rw [commit_pass_error_recovery.1]
    rfl
  · rfl

end Claims
